import Mathlib

/-!
Verification development for the NutriLens capture-analyze-persist workflow.

The definitions below are a shallow embedding of the application logic in
`src/App.tsx` (together with the data model of `src/types.ts`):

* `NutritionData`, `RecipeStep`, `FoodData`, `AnalysisHistory` mirror the
  interfaces of `types.ts` (JavaScript numbers are embedded as `Int` for the
  nutrition figures and `Nat` for timestamps; no claim computes with them).
* `AppState` collects the `useState` hooks of the `App` component, plus a
  `pending` field recording the in-flight gateway request of
  `handleAnalyze` / `handleManualSearch` (the suspended continuation between
  the `await` and its resolution), plus a `MediaState` modelling the video
  element's `srcObject` and the liveness of the tracks of each stream handed
  out by `getUserMedia`.
* Each handler of `App.tsx` becomes a pure state transformer of the same
  name.  Asynchronous handlers are split at their single `await`: the part
  before the suspension runs when the triggering event fires, and the
  resolution of the promise is a separate `completeSuccess` /
  `completeFailure` event.
* `step` wires the handlers to user/system events, guarded exactly by the
  JSX visibility conditions under which each trigger is rendered.
-/

/-- Mirrors `NutritionData` of `src/types.ts`. -/
structure NutritionData where
  calories : Int
  protein : Int
  carbs : Int
  fat : Int
  fiber : Option Int := none
  sugar : Option Int := none
  vitamins : Option (List String) := none
deriving DecidableEq, Repr

/-- Mirrors `RecipeStep` of `src/types.ts`. -/
structure RecipeStep where
  step : Int
  instruction : String
deriving DecidableEq, Repr

/-- Mirrors `FoodData` of `src/types.ts`. -/
structure FoodData where
  food_name : String
  confidence : String
  nutrition : NutritionData
  ingredients : List String
  recipe : List RecipeStep
  allergens : List String
  serving_size : String
  cuisine : String
  classification : String
  tips : Option (List String) := none
deriving DecidableEq, Repr

/-- Mirrors `AnalysisHistory` of `src/types.ts`. -/
structure AnalysisHistory where
  id : String
  timestamp : Nat
  imageUrl : String
  data : FoodData
deriving DecidableEq, Repr

/-- The in-flight gateway request of a suspended `handleAnalyze`
(`analyzeFoodImage image`) or `handleManualSearch`
(`analyzeFoodByName manualInput`) call. -/
inductive PendingReq where
  | image (img : String)
  | byName (q : String)
deriving DecidableEq, Repr

/-- Camera resource model: `srcObject` is the stream currently attached to
the video element (streams are numbered in order of allocation by
`getUserMedia`), `liveTracks` lists the streams whose tracks have not been
stopped, and `nextStreamId` numbers the next stream `getUserMedia` returns. -/
structure MediaState where
  srcObject : Option Nat
  liveTracks : List Nat
  nextStreamId : Nat
deriving DecidableEq, Repr

/-- The `useState` hooks of the `App` component of `src/App.tsx` (the
theme / history-sidebar booleans are cosmetic and not modelled), together
with the pending gateway request and the camera resource model. -/
structure AppState where
  isCameraActive : Bool
  capturedImage : Option String
  isAnalyzing : Bool
  foodData : Option FoodData
  error : Option String
  history : List AnalysisHistory
  manualInput : String
  pending : Option PendingReq
  media : MediaState
deriving DecidableEq, Repr

/-- Initial hook values of `App`: everything empty/off. -/
def initState : AppState :=
  { isCameraActive := false
    capturedImage := none
    isAnalyzing := false
    foodData := none
    error := none
    history := []
    manualInput := ""
    pending := none
    media := { srcObject := none, liveTracks := [], nextStreamId := 0 } }

/-- `stopCamera` of `src/App.tsx`: if the video element has a `srcObject`,
stop all of its tracks (`track.stop()` marks the stream's tracks dead;
`srcObject` itself is not cleared); then `setIsCameraActive(false)`. -/
def stopCamera (s : AppState) : AppState :=
  let m := s.media
  let m' :=
    match m.srcObject with
    | some i => { m with liveTracks := m.liveTracks.filter (fun j => j ≠ i) }
    | none => m
  { s with media := m', isCameraActive := false }

/-- `startCamera` of `src/App.tsx`, in the run where `getUserMedia`
resolves: `setError(null)`, `setIsCameraActive(true)`,
`setCapturedImage(null)`, `setFoodData(null)`, then the freshly allocated
stream is assigned to `videoRef.current.srcObject`.  Note that the code
never stops the previously attached stream: assigning `srcObject` leaves
the old stream's tracks live. -/
def startCameraSuccess (s : AppState) : AppState :=
  let m := s.media
  { s with
      error := none
      isCameraActive := true
      capturedImage := none
      foodData := none
      media :=
        { srcObject := some m.nextStreamId
          liveTracks := m.nextStreamId :: m.liveTracks
          nextStreamId := m.nextStreamId + 1 } }

/-- `startCamera` of `src/App.tsx`, in the run where `getUserMedia`
rejects: the pre-await setters ran (`error := null`, camera on, image and
result cleared), then the catch sets the permission message and turns the
camera flag back off.  No stream was allocated. -/
def startCameraFailure (s : AppState) : AppState :=
  { s with
      error := some "Unable to access camera. Please check permissions."
      isCameraActive := false
      capturedImage := none
      foodData := none }

/-- The prefix of `handleAnalyze` / `handleManualSearch` of `src/App.tsx`
before the gateway `await`: `setIsAnalyzing(true)`, `setError(null)`, and
the request goes in flight. -/
def beginAnalyze (req : PendingReq) (s : AppState) : AppState :=
  { s with isAnalyzing := true, error := none, pending := some req }

/-- `capturePhoto` of `src/App.tsx` with `img` the JPEG data URI produced
by `canvas.toDataURL`: `setCapturedImage(dataUrl)`, `stopCamera()`, then
`handleAnalyze(dataUrl)` up to its `await`. -/
def capturePhoto (img : String) (s : AppState) : AppState :=
  beginAnalyze (.image img) (stopCamera { s with capturedImage := some img })

/-- `handleFileUpload` of `src/App.tsx` with `img` the base64 data URI the
`FileReader` produced: `setCapturedImage`, `setFoodData(null)`, then
`handleAnalyze(base64String)` up to its `await`. -/
def handleFileUpload (img : String) (s : AppState) : AppState :=
  beginAnalyze (.image img) { s with capturedImage := some img, foodData := none }

/-- Model of the JavaScript `String.prototype.trim` whitespace test, for
the characters treated as whitespace by `manualInput.trim()`. -/
def isJsWhitespace (c : Char) : Bool :=
  c = ' ' || c = '\t' || c = '\n' || c = '\r' ||
  c = Char.ofNat 0x0b || c = Char.ofNat 0x0c || c = Char.ofNat 0xa0

/-- Model of the JavaScript `String.prototype.trim`: drop leading and
trailing whitespace. -/
def jsTrim (s : String) : String :=
  ⟨((s.data.dropWhile isJsWhitespace).reverse.dropWhile isJsWhitespace).reverse⟩

/-- `handleManualSearch` of `src/App.tsx`: `if (!manualInput.trim()) return`
(an empty trimmed input aborts before any state change), otherwise
`setIsAnalyzing(true)`, `setError(null)`, `setCapturedImage(null)` and
`analyzeFoodByName(manualInput)` goes in flight. -/
def handleManualSearch (s : AppState) : AppState :=
  if jsTrim s.manualInput = "" then s
  else beginAnalyze (.byName s.manualInput) { s with capturedImage := none }

/-- The history entry built in the success branch of `handleAnalyze`
(`id := Date.now().toString()`, `timestamp := Date.now()`). -/
def mkHistoryEntry (id : String) (now : Nat) (img : String) (r : FoodData) :
    AnalysisHistory :=
  { id := id, timestamp := now, imageUrl := img, data := r }

/-- Resolution of the in-flight gateway request with a `FoodData` result:
the success branch of `handleAnalyze` (`setFoodData(result)`, prepend a new
history entry, `slice(0, 20)`, persist) resp. of `handleManualSearch`
(`setFoodData(result)` only — no history write), followed by the `finally`
(`setIsAnalyzing(false)`).  `id`/`now` stand for the `Date.now()` values. -/
def completeSuccess (r : FoodData) (id : String) (now : Nat) (s : AppState) :
    AppState :=
  match s.pending with
  | some (.image img) =>
      { s with
          foodData := some r
          history := (mkHistoryEntry id now img r :: s.history).take 20
          isAnalyzing := false
          pending := none }
  | some (.byName _) =>
      { s with foodData := some r, isAnalyzing := false, pending := none }
  | none => s

/-- Resolution of the in-flight gateway request with a rejection: the catch
branch of `handleAnalyze` (`setError(err.message || "Failed to analyze
image. Please try again.")`) resp. of `handleManualSearch`
(`setError(err.message || "Search failed.")`), followed by the `finally`.
An empty (falsy) `err.message` selects the fallback text. -/
def completeFailure (msg : String) (s : AppState) : AppState :=
  match s.pending with
  | some (.image _) =>
      { s with
          error := some (if msg = "" then "Failed to analyze image. Please try again." else msg)
          isAnalyzing := false
          pending := none }
  | some (.byName _) =>
      { s with
          error := some (if msg = "" then "Search failed." else msg)
          isAnalyzing := false
          pending := none }
  | none => s

/-- The Dismiss button: `onClick={() => setError(null)}`. -/
def dismissError (s : AppState) : AppState :=
  { s with error := none }

/-- The bottom-bar clear button: `setFoodData(null); setCapturedImage(null)`. -/
def clearResult (s : AppState) : AppState :=
  { s with foodData := none, capturedImage := none }

/-- The controlled search input: `onChange={(e) => setManualInput(e.target.value)}`. -/
def setManualInput (q : String) (s : AppState) : AppState :=
  { s with manualInput := q }

/-- Render condition of the hero section holding the manual-search form:
`!foodData && !isAnalyzing && !isCameraActive && !capturedImage`. -/
def heroVisible (s : AppState) : Bool :=
  s.foodData.isNone && !s.isAnalyzing && !s.isCameraActive && s.capturedImage.isNone

/-- User and promise-resolution events of the workflow. -/
inductive Event where
  | startOk
  | startFail
  | stopCam
  | capture (img : String)
  | upload (img : String)
  | setInput (q : String)
  | search
  | completeOk (r : FoodData) (id : String) (now : Nat)
  | completeFail (msg : String)
  | dismiss
  | clear
deriving Repr

/-- One step of the workflow.  Each event is guarded by the JSX condition
under which its trigger is rendered in `src/App.tsx`:
* every button invoking `startCamera` (the "Scan Food" bar, "Retake Photo",
  "New Scan") sits in a section rendered only while `!isAnalyzing`;
* `stopCamera` and `capturePhoto` buttons render inside the
  `isCameraActive` camera view;
* the upload input sits in the action bar rendered when
  `!isCameraActive && !isAnalyzing`;
* the search form sits in the hero section (`heroVisible`);
* the gateway resolutions fire only while a request is pending
  (`completeSuccess`/`completeFailure` are no-ops otherwise);
* Dismiss renders only while `error` is set;
* the clear button renders in the action bar and only when `foodData`
  is set. -/
def step : Event → AppState → AppState
  | .startOk, s => if s.isAnalyzing then s else startCameraSuccess s
  | .startFail, s => if s.isAnalyzing then s else startCameraFailure s
  | .stopCam, s => if s.isCameraActive then stopCamera s else s
  | .capture img, s => if s.isCameraActive then capturePhoto img s else s
  | .upload img, s =>
      if s.isCameraActive || s.isAnalyzing then s else handleFileUpload img s
  | .setInput q, s => if heroVisible s then setManualInput q s else s
  | .search, s => if heroVisible s then handleManualSearch s else s
  | .completeOk r id now, s => completeSuccess r id now s
  | .completeFail msg, s => completeFailure msg s
  | .dismiss, s => if s.error.isSome then dismissError s else s
  | .clear, s =>
      if s.foodData.isSome && !s.isCameraActive && !s.isAnalyzing then
        clearResult s
      else s

/-- Run a sequence of events from the initial state. -/
def run (evs : List Event) : AppState :=
  evs.foldl (fun s e => step e s) initState

/-- A state the workflow can actually be in. -/
def Reachable (s : AppState) : Prop :=
  ∃ evs, run evs = s

/-- Render condition of the camera view: `isCameraActive`. -/
def cameraModeActive (s : AppState) : Bool :=
  s.isCameraActive

/-- Render condition of the captured-image view:
`capturedImage && !foodData && !isAnalyzing`. -/
def capturedModeActive (s : AppState) : Bool :=
  s.capturedImage.isSome && s.foodData.isNone && !s.isAnalyzing

/-- Render condition of the analyzing spinner: `isAnalyzing`. -/
def analyzingModeActive (s : AppState) : Bool :=
  s.isAnalyzing

/-- Render condition of the results view: `foodData && !isAnalyzing`. -/
def resultModeActive (s : AppState) : Bool :=
  s.foodData.isSome && !s.isAnalyzing

/-- Render condition of the idle hero section (the `Idle` mode of the
spec's state machine): no result, not analyzing, no camera, no image. -/
def idleModeActive (s : AppState) : Bool :=
  heroVisible s

/-- Number of simultaneously active workflow modes among
CameraActive / Captured / Analyzing / Result. -/
def activeModeCount (s : AppState) : Nat :=
  (cond (cameraModeActive s) 1 0) + (cond (capturedModeActive s) 1 0) +
  (cond (analyzingModeActive s) 1 0) + (cond (resultModeActive s) 1 0)

/-- Workflow invariant, established by induction over `step`:
camera-active states carry no image/result and are not analyzing; an
in-flight request implies the analyzing flag and the absence of a displayed
result; an in-flight text search has a non-empty trimmed query; an
in-flight image request displays exactly its captured image. -/
def AppInv (s : AppState) : Prop :=
  (s.isCameraActive = true →
    s.isAnalyzing = false ∧ s.capturedImage = none ∧ s.foodData = none) ∧
  (∀ p, s.pending = some p → s.isAnalyzing = true ∧ s.foodData = none) ∧
  (∀ q, s.pending = some (PendingReq.byName q) → ¬ jsTrim q = "") ∧
  (∀ img, s.pending = some (PendingReq.image img) → s.capturedImage = some img)

/-!
Model of the persistence-loading effect of `src/App.tsx`:

```
const savedHistory = localStorage.getItem('nutrilens_history');
if (savedHistory) setHistory(JSON.parse(savedHistory));
```

`localStorage.getItem` returns `null` when the key is absent (embedded as
`none`); an empty stored string is falsy and also skips the branch.  For a
non-empty stored string the code calls `JSON.parse` with NO surrounding
`try`/`catch`, so a malformed string makes the effect throw.  `JSON.parse`
is a platform builtin; `jsonParse` below models it as a total recursive
descent parser over the JSON grammar (numbers are kept as their lexemes —
no claim interprets them). -/

/-- JSON values as produced by the modelled `JSON.parse`. -/
inductive Json where
  | null
  | bool (b : Bool)
  | num (lexeme : String)
  | str (s : String)
  | arr (elems : List Json)
  | obj (fields : List (String × Json))

/-- Whitespace the JSON grammar allows between tokens. -/
def jsonWs (c : Char) : Bool :=
  c = ' ' || c = '\t' || c = '\n' || c = '\r'

/-- Skip insignificant whitespace. -/
def skipJsonWs (cs : List Char) : List Char :=
  cs.dropWhile jsonWs

/-- Hexadecimal digit test for `\u` escapes. -/
def isHexDigitChar (c : Char) : Bool :=
  c.isDigit || ('a' ≤ c && c ≤ 'f') || ('A' ≤ c && c ≤ 'F')

/-- Numeric value of a hexadecimal digit. -/
def hexVal (c : Char) : Nat :=
  if c.isDigit then c.toNat - '0'.toNat
  else if 'a' ≤ c && c ≤ 'f' then c.toNat - 'a'.toNat + 10
  else if 'A' ≤ c && c ≤ 'F' then c.toNat - 'A'.toNat + 10
  else 0

/-- Parse the body of a JSON string after its opening quote, decoding
escapes; returns the decoded characters and the remaining input.  Fails on
an unterminated string, an invalid escape, or a raw control character. -/
def parseStringBody : Nat → List Char → Option (List Char × List Char)
  | 0, _ => none
  | _ + 1, [] => none
  | n + 1, c :: rest =>
    if c = '"' then some ([], rest)
    else if c = '\\' then
      match rest with
      | [] => none
      | e :: rest2 =>
        let dec :=
          if e = '"' then some ('"', rest2)
          else if e = '\\' then some ('\\', rest2)
          else if e = '/' then some ('/', rest2)
          else if e = 'b' then some (Char.ofNat 0x08, rest2)
          else if e = 'f' then some (Char.ofNat 0x0c, rest2)
          else if e = 'n' then some ('\n', rest2)
          else if e = 'r' then some ('\r', rest2)
          else if e = 't' then some ('\t', rest2)
          else if e = 'u' then
            match rest2 with
            | h1 :: h2 :: h3 :: h4 :: rest3 =>
              if isHexDigitChar h1 && isHexDigitChar h2 &&
                 isHexDigitChar h3 && isHexDigitChar h4 then
                some (Char.ofNat
                  (hexVal h1 * 4096 + hexVal h2 * 256 + hexVal h3 * 16 + hexVal h4),
                  rest3)
              else none
            | _ => none
          else none
        match dec with
        | some (d, rest') =>
          (parseStringBody n rest').map (fun p => (d :: p.1, p.2))
        | none => none
    else if c.toNat < 0x20 then none
    else (parseStringBody n rest).map (fun p => (c :: p.1, p.2))

/-- Split off a maximal run of decimal digits. -/
def parseDigits (cs : List Char) : List Char × List Char :=
  (cs.takeWhile Char.isDigit, cs.dropWhile Char.isDigit)

/-- Optional fraction part of a JSON number. -/
def parseFrac (cs : List Char) : Option (List Char × List Char) :=
  match cs with
  | '.' :: r =>
    let p := parseDigits r
    if p.1.isEmpty then none else some ('.' :: p.1, p.2)
  | _ => some ([], cs)

/-- Optional exponent part of a JSON number. -/
def parseExp (cs : List Char) : Option (List Char × List Char) :=
  match cs with
  | c :: r =>
    if c = 'e' || c = 'E' then
      let sr : List Char × List Char :=
        match r with
        | s :: r' => if s = '+' || s = '-' then ([s], r') else ([], r)
        | [] => ([], r)
      let p := parseDigits sr.2
      if p.1.isEmpty then none else some (c :: (sr.1 ++ p.1), p.2)
    else some ([], cs)
  | [] => some ([], cs)

/-- Parse a JSON number (sign, integer part without leading zeros,
optional fraction and exponent); returns its lexeme. -/
def parseNumber (cs : List Char) : Option (List Char × List Char) :=
  let sgn : List Char × List Char :=
    match cs with
    | '-' :: r => (['-'], r)
    | _ => ([], cs)
  let int? : Option (List Char × List Char) :=
    match sgn.2 with
    | '0' :: r => some (['0'], r)
    | c :: r =>
      if c.isDigit then
        let p := parseDigits r
        some (c :: p.1, p.2)
      else none
    | [] => none
  match int? with
  | none => none
  | some (ip, r) =>
    match parseFrac r with
    | none => none
    | some (fp, r2) =>
      match parseExp r2 with
      | none => none
      | some (ep, r3) => some (sgn.1 ++ ip ++ fp ++ ep, r3)

mutual

/-- Recursive-descent parse of one JSON value (fuel-indexed). -/
def parseValue : Nat → List Char → Option (Json × List Char)
  | 0, _ => none
  | fuel + 1, cs =>
    match skipJsonWs cs with
    | [] => none
    | c :: rest =>
      if c = 'n' then
        match rest with
        | 'u' :: 'l' :: 'l' :: r => some (.null, r)
        | _ => none
      else if c = 't' then
        match rest with
        | 'r' :: 'u' :: 'e' :: r => some (.bool true, r)
        | _ => none
      else if c = 'f' then
        match rest with
        | 'a' :: 'l' :: 's' :: 'e' :: r => some (.bool false, r)
        | _ => none
      else if c = '"' then
        (parseStringBody (rest.length + 1) rest).map
          (fun p => (.str ⟨p.1⟩, p.2))
      else if c = '[' then
        match skipJsonWs rest with
        | ']' :: r2 => some (.arr [], r2)
        | _ => (parseElems fuel rest).map (fun p => (.arr p.1, p.2))
      else if c = Char.ofNat 0x7b then
        match skipJsonWs rest with
        | r1 :: r2 =>
          if r1 = Char.ofNat 0x7d then some (.obj [], r2)
          else (parseMembers fuel rest).map (fun p => (.obj p.1, p.2))
        | [] => none
      else if c.isDigit || c = '-' then
        (parseNumber (c :: rest)).map (fun p => (.num ⟨p.1⟩, p.2))
      else none

/-- Parse the comma-separated elements of a non-empty JSON array up to the
closing bracket. -/
def parseElems : Nat → List Char → Option (List Json × List Char)
  | 0, _ => none
  | fuel + 1, cs =>
    match parseValue fuel cs with
    | none => none
    | some (v, r) =>
      match skipJsonWs r with
      | ',' :: r2 => (parseElems fuel r2).map (fun p => (v :: p.1, p.2))
      | ']' :: r2 => some ([v], r2)
      | _ => none

/-- Parse the comma-separated members of a non-empty JSON object up to the
closing brace. -/
def parseMembers : Nat → List Char → Option (List (String × Json) × List Char)
  | 0, _ => none
  | fuel + 1, cs =>
    match skipJsonWs cs with
    | '"' :: r =>
      match parseStringBody (r.length + 1) r with
      | none => none
      | some (key, r2) =>
        match skipJsonWs r2 with
        | ':' :: r3 =>
          match parseValue fuel r3 with
          | none => none
          | some (v, r4) =>
            match skipJsonWs r4 with
            | ',' :: r5 =>
              (parseMembers fuel r5).map (fun p => ((⟨key⟩, v) :: p.1, p.2))
            | r6 :: r7 =>
              if r6 = Char.ofNat 0x7d then some ([(⟨key⟩, v)], r7)
              else none
            | _ => none
        | _ => none
    | _ => none

end

/-- Model of the platform `JSON.parse`: parse one value, allow surrounding
whitespace, require the input to be fully consumed; `none` models the
`SyntaxError` the builtin throws. -/
def jsonParse (s : String) : Option Json :=
  match parseValue (s.length + 1) s.data with
  | some (v, rest) => if skipJsonWs rest = [] then some v else none
  | none => none

/-- The persistence-load effect for the history key of `src/App.tsx`
(lines 23-24): `none` stored = key absent (`getItem` returned `null`);
an absent or empty (falsy) stored string leaves the initial empty history
(`.ok none`); otherwise the string is handed to `JSON.parse`, whose result
is installed via `setHistory` (`.ok (some v)`) — and whose `SyntaxError`
on malformed input propagates out of the effect (`.error ()`), as the code
has no `try`/`catch` here. -/
def loadHistory (stored : Option String) : Except Unit (Option Json) :=
  match stored with
  | none => .ok none
  | some s =>
    if s = "" then .ok none
    else
      match jsonParse s with
      | some v => .ok (some v)
      | none => .error ()

/-- The events a run of successful image analyses consists of: each analysis
uploads an image and then the gateway resolves with a result. -/
def successEvents : List (String × FoodData × String × Nat) → List Event
  | [] => []
  | (img, r, id, t) :: rest =>
      Event.upload img :: Event.completeOk r id t :: successEvents rest

/-- The history entry a successful image analysis produces. -/
def entryOf : String × FoodData × String × Nat → AnalysisHistory
  | (img, r, id, t) => mkHistoryEntry id t img r

/-- A fixed sample oracle result used in concrete runs. -/
def sampleFood : FoodData :=
  { food_name := "dal"
    confidence := "High"
    nutrition := { calories := 250, protein := 9, carbs := 30, fat := 8 }
    ingredients := ["lentils"]
    recipe := [{ step := 1, instruction := "cook" }]
    allergens := []
    serving_size := "1 bowl"
    cuisine := "indian"
    classification := "Veg" }

/-- Twenty-one successful image analyses with pairwise distinct timestamps. -/
def run21 : List (String × FoodData × String × Nat) :=
  (List.range 21).map (fun i => ("img", sampleFood, "id", i))

/-- The history-sidebar item click of `src/App.tsx` (lines 222-226):
`setFoodData(item.data); setCapturedImage(item.imageUrl)` (plus closing the
cosmetic sidebar).  The History toggle button sits in the always-rendered
header, and the sidebar itself has no camera/analyzing guard, so this
handler can fire in any state in which `item` is in the history list —
including while a gateway request is in flight. -/
def selectHistoryEntry (item : AnalysisHistory) (s : AppState) : AppState :=
  { s with foodData := some item.data, capturedImage := some item.imageUrl }

/-- The full event alphabet of the program: the workflow operations of
`Event` plus the history-item click. -/
inductive EventF where
  | base (e : Event)
  | selectHistory (item : AnalysisHistory)
deriving Repr

/-- One step over the full alphabet: workflow operations step as in `step`;
a history-item click is enabled exactly when the clicked entry is in the
history list (the sidebar renders one row per entry). -/
def stepF : EventF → AppState → AppState
  | .base e, s => step e s
  | .selectHistory item, s =>
      if s.history.contains item then selectHistoryEntry item s else s

/-- Run a sequence of full-alphabet events from the initial state. -/
def runF (evs : List EventF) : AppState :=
  evs.foldl (fun s e => stepF e s) initState

/-- A state the full program (history clicks included) can actually be in. -/
def ReachableF (s : AppState) : Prop :=
  ∃ evs, runF evs = s

/-- Invariant of the full program: an in-flight request implies the
analyzing flag, and an in-flight image request implies SOME displayed
image (the captured one, or — after a mid-flight history click — a history
entry's image). -/
def AppInvF (s : AppState) : Prop :=
  (∀ p, s.pending = some p → s.isAnalyzing = true) ∧
  (∀ img, s.pending = some (PendingReq.image img) → s.capturedImage.isSome = true)

/-- A full-alphabet trace that interleaves a history-item click with an
in-flight image analysis that then fails: upload "a" and succeed (history
gains one entry), upload "b", select the history entry while "b" is being
analyzed, then the gateway rejects. -/
def selTrace : List EventF :=
  [.base (.upload "a"), .base (.completeOk sampleFood "id" 1),
   .base (.upload "b"), .selectHistory (mkHistoryEntry "id" 1 "a" sampleFood),
   .base (.completeFail "boom")]

theorem appInv_init : AppInv initState := by
  refine ⟨?_, ?_, ?_, ?_⟩ <;> simp [initState]

theorem appInv_step (e : Event) (s : AppState) (h : AppInv s) :
    AppInv (step e s) := by
  obtain ⟨h1, h2, h3, h4⟩ := h
  cases e with
  | startOk =>
    cases ha : s.isAnalyzing with
    | true => simpa [step, ha] using ⟨h1, h2, h3, h4⟩
    | false =>
      refine ⟨?_, ?_, ?_, ?_⟩ <;>
        simp only [step, ha, if_neg, Bool.false_eq_true, not_false_iff,
          startCameraSuccess, if_false]
      · intro _; simp
      · intro p hp
        exact absurd ((h2 p (by simpa using hp)).1) (by simp [ha])
      · intro q hq
        exact absurd ((h2 _ (by simpa using hq)).1) (by simp [ha])
      · intro img himg
        exact absurd ((h2 _ (by simpa using himg)).1) (by simp [ha])
  | startFail =>
    cases ha : s.isAnalyzing with
    | true => simpa [step, ha] using ⟨h1, h2, h3, h4⟩
    | false =>
      refine ⟨?_, ?_, ?_, ?_⟩ <;>
        simp only [step, ha, Bool.false_eq_true, not_false_iff,
          startCameraFailure, if_false]
      · intro hc; simp at hc
      · intro p hp
        exact absurd ((h2 p (by simpa using hp)).1) (by simp [ha])
      · intro q hq
        exact absurd ((h2 _ (by simpa using hq)).1) (by simp [ha])
      · intro img himg
        exact absurd ((h2 _ (by simpa using himg)).1) (by simp [ha])
  | stopCam =>
    cases hc : s.isCameraActive with
    | false => simpa [step, hc] using ⟨h1, h2, h3, h4⟩
    | true =>
      refine ⟨?_, ?_, ?_, ?_⟩ <;> simp only [step, hc, if_true, stopCamera]
      · intro hcc; simp at hcc
      · intro p hp; simpa using h2 p (by simpa using hp)
      · intro q hq; exact h3 q (by simpa using hq)
      · intro img himg; simpa using h4 img (by simpa using himg)
  | capture img =>
    cases hc : s.isCameraActive with
    | false => simpa [step, hc] using ⟨h1, h2, h3, h4⟩
    | true =>
      obtain ⟨ha, hci, hf⟩ := h1 hc
      refine ⟨?_, ?_, ?_, ?_⟩ <;>
        simp only [step, hc, if_true, capturePhoto, beginAnalyze, stopCamera]
      · intro hcc; simp at hcc
      · intro p hp; simp [hf]
      · intro q hq; simp at hq
      · intro i hi; simp at hi; simp [hi]
  | upload img =>
    cases hg : (s.isCameraActive || s.isAnalyzing) with
    | true => simpa [step, hg] using ⟨h1, h2, h3, h4⟩
    | false =>
      have hg' := hg
      simp only [Bool.or_eq_false_iff] at hg'
      obtain ⟨hcam, ha⟩ := hg'
      refine ⟨?_, ?_, ?_, ?_⟩ <;>
        simp only [step, hg, Bool.false_eq_true, not_false_iff, if_false,
          handleFileUpload, beginAnalyze]
      · intro hcc; simp [hcam] at hcc
      · intro p hp; simp
      · intro q hq; simp at hq
      · intro i hi; simp at hi; simp [hi]
  | setInput q =>
    cases hg : heroVisible s with
    | false => simpa [step, hg] using ⟨h1, h2, h3, h4⟩
    | true =>
      refine ⟨?_, ?_, ?_, ?_⟩ <;> simp only [step, hg, if_true, setManualInput]
      · intro hcc; exact h1 (by simpa using hcc)
      · intro p hp; exact h2 p (by simpa using hp)
      · intro qq hq; exact h3 qq (by simpa using hq)
      · intro i hi; exact h4 i (by simpa using hi)
  | search =>
    cases hg : heroVisible s with
    | false => simpa [step, hg] using ⟨h1, h2, h3, h4⟩
    | true =>
      have hhero := hg
      simp only [heroVisible, Bool.and_eq_true, Bool.not_eq_true',
        Option.isNone_iff_eq_none] at hhero
      obtain ⟨⟨⟨hfd, ha⟩, hcam⟩, hci⟩ := hhero
      by_cases ht : jsTrim s.manualInput = ""
      · simpa [step, hg, handleManualSearch, ht] using ⟨h1, h2, h3, h4⟩
      · refine ⟨?_, ?_, ?_, ?_⟩ <;>
          simp only [step, hg, if_true, handleManualSearch, ht, if_neg,
            beginAnalyze, if_false]
        · intro hcc; simp [hcam] at hcc
        · intro p hp; simp [hfd]
        · intro qq hq; simp at hq; simpa [hq] using ht
        · intro i hi; simp at hi
  | completeOk r id now =>
    match hp : s.pending with
    | none => simpa [step, completeSuccess, hp] using ⟨h1, h2, h3, h4⟩
    | some (.image img) =>
      have ha := (h2 _ hp).1
      have hcam : s.isCameraActive = false := by
        cases hcam : s.isCameraActive with
        | false => rfl
        | true => exact absurd ha (by simp [(h1 hcam).1])
      refine ⟨?_, ?_, ?_, ?_⟩ <;>
        simp only [step, completeSuccess, hp]
      · intro hcc; simp [hcam] at hcc
      · intro p hpp; simp at hpp
      · intro q hq; simp at hq
      · intro i hi; simp at hi
    | some (.byName q) =>
      have ha := (h2 _ hp).1
      have hcam : s.isCameraActive = false := by
        cases hcam : s.isCameraActive with
        | false => rfl
        | true => exact absurd ha (by simp [(h1 hcam).1])
      refine ⟨?_, ?_, ?_, ?_⟩ <;>
        simp only [step, completeSuccess, hp]
      · intro hcc; simp [hcam] at hcc
      · intro p hpp; simp at hpp
      · intro qq hq; simp at hq
      · intro i hi; simp at hi
  | completeFail msg =>
    match hp : s.pending with
    | none => simpa [step, completeFailure, hp] using ⟨h1, h2, h3, h4⟩
    | some (.image img) =>
      have ha := (h2 _ hp).1
      have hcam : s.isCameraActive = false := by
        cases hcam : s.isCameraActive with
        | false => rfl
        | true => exact absurd ha (by simp [(h1 hcam).1])
      refine ⟨?_, ?_, ?_, ?_⟩ <;>
        simp only [step, completeFailure, hp]
      · intro hcc; simp [hcam] at hcc
      · intro p hpp; simp at hpp
      · intro q hq; simp at hq
      · intro i hi; simp at hi
    | some (.byName q) =>
      have ha := (h2 _ hp).1
      have hcam : s.isCameraActive = false := by
        cases hcam : s.isCameraActive with
        | false => rfl
        | true => exact absurd ha (by simp [(h1 hcam).1])
      refine ⟨?_, ?_, ?_, ?_⟩ <;>
        simp only [step, completeFailure, hp]
      · intro hcc; simp [hcam] at hcc
      · intro p hpp; simp at hpp
      · intro qq hq; simp at hq
      · intro i hi; simp at hi
  | dismiss =>
    cases hg : s.error.isSome with
    | false => simpa [step, hg] using ⟨h1, h2, h3, h4⟩
    | true =>
      refine ⟨?_, ?_, ?_, ?_⟩ <;> simp only [step, hg, if_true, dismissError]
      · intro hcc; exact h1 (by simpa using hcc)
      · intro p hpp; exact h2 p (by simpa using hpp)
      · intro q hq; exact h3 q (by simpa using hq)
      · intro i hi; exact h4 i (by simpa using hi)
  | clear =>
    cases hg : (s.foodData.isSome && !s.isCameraActive && !s.isAnalyzing) with
    | false => simpa [step, hg] using ⟨h1, h2, h3, h4⟩
    | true =>
      have hg' := hg
      simp only [Bool.and_eq_true, Bool.not_eq_true'] at hg'
      obtain ⟨⟨hfd, hcam⟩, ha⟩ := hg'
      refine ⟨?_, ?_, ?_, ?_⟩ <;> simp only [step, hg, if_true, clearResult]
      · intro hcc; simp [hcam] at hcc
      · intro p hpp
        exact absurd ((h2 p (by simpa using hpp)).1) (by simp [ha])
      · intro q hq; exact h3 q (by simpa using hq)
      · intro i hi
        exact absurd ((h2 _ (by simpa using hi)).1) (by simp [ha])

theorem appInv_foldl (evs : List Event) (s : AppState) (h : AppInv s) :
    AppInv (evs.foldl (fun s e => step e s) s) := by
  induction evs generalizing s with
  | nil => simpa using h
  | cons e rest ih => exact ih (step e s) (appInv_step e s h)

theorem reachable_appInv (s : AppState) (h : Reachable s) : AppInv s := by
  obtain ⟨evs, rfl⟩ := h
  exact appInv_foldl evs initState appInv_init

theorem appInvF_init : AppInvF initState := by
  refine ⟨?_, ?_⟩ <;> simp [initState]

theorem appInvF_step (e : EventF) (s : AppState) (h : AppInvF s) :
    AppInvF (stepF e s) := by
  obtain ⟨h2, h5⟩ := h
  cases e with
  | selectHistory item =>
    cases hg : s.history.contains item with
    | false => simpa only [stepF, hg] using ⟨h2, h5⟩
    | true =>
      refine ⟨?_, ?_⟩ <;> simp only [stepF, hg, if_true, selectHistoryEntry]
      · intro p hp; exact h2 p (by simpa using hp)
      · intro img hi; simp
  | base be =>
    cases be with
    | startOk =>
      cases ha : s.isAnalyzing with
      | true => simpa [stepF, step, ha] using ⟨h2, h5⟩
      | false =>
        refine ⟨?_, ?_⟩ <;>
          simp only [stepF, step, ha, Bool.false_eq_true, not_false_iff,
            if_false, startCameraSuccess]
        · intro p hp
          exact absurd (h2 p (by simpa using hp)) (by simp [ha])
        · intro img hi
          exact absurd (h2 _ (by simpa using hi)) (by simp [ha])
    | startFail =>
      cases ha : s.isAnalyzing with
      | true => simpa [stepF, step, ha] using ⟨h2, h5⟩
      | false =>
        refine ⟨?_, ?_⟩ <;>
          simp only [stepF, step, ha, Bool.false_eq_true, not_false_iff,
            if_false, startCameraFailure]
        · intro p hp
          exact absurd (h2 p (by simpa using hp)) (by simp [ha])
        · intro img hi
          exact absurd (h2 _ (by simpa using hi)) (by simp [ha])
    | stopCam =>
      cases hc : s.isCameraActive with
      | false => simpa [stepF, step, hc] using ⟨h2, h5⟩
      | true =>
        refine ⟨?_, ?_⟩ <;> simp only [stepF, step, hc, if_true, stopCamera]
        · intro p hp; simpa using h2 p (by simpa using hp)
        · intro img hi; simpa using h5 img (by simpa using hi)
    | capture img =>
      cases hc : s.isCameraActive with
      | false => simpa [stepF, step, hc] using ⟨h2, h5⟩
      | true =>
        refine ⟨?_, ?_⟩ <;>
          simp only [stepF, step, hc, if_true, capturePhoto, beginAnalyze,
            stopCamera]
        · intro p hp; simp
        · intro i hi; simp
    | upload img =>
      cases hg : (s.isCameraActive || s.isAnalyzing) with
      | true => simpa [stepF, step, hg] using ⟨h2, h5⟩
      | false =>
        refine ⟨?_, ?_⟩ <;>
          simp only [stepF, step, hg, Bool.false_eq_true, not_false_iff,
            if_false, handleFileUpload, beginAnalyze]
        · intro p hp; simp
        · intro i hi; simp
    | setInput q =>
      cases hg : heroVisible s with
      | false => simpa [stepF, step, hg] using ⟨h2, h5⟩
      | true =>
        refine ⟨?_, ?_⟩ <;>
          simp only [stepF, step, hg, if_true, setManualInput]
        · intro p hp; exact h2 p (by simpa using hp)
        · intro img hi; exact h5 img (by simpa using hi)
    | search =>
      cases hg : heroVisible s with
      | false => simpa [stepF, step, hg] using ⟨h2, h5⟩
      | true =>
        by_cases ht : jsTrim s.manualInput = ""
        · simpa [stepF, step, hg, handleManualSearch, ht] using ⟨h2, h5⟩
        · refine ⟨?_, ?_⟩ <;>
            simp only [stepF, step, hg, if_true, handleManualSearch, ht,
              if_neg, beginAnalyze, if_false]
          · intro p hp; simp
          · intro i hi; simp at hi
    | completeOk r id now =>
      match hp : s.pending with
      | none => simpa [stepF, step, completeSuccess, hp] using ⟨h2, h5⟩
      | some (.image img) =>
        refine ⟨?_, ?_⟩ <;> simp only [stepF, step, completeSuccess, hp]
        · intro p hpp; simp at hpp
        · intro i hi; simp at hi
      | some (.byName q) =>
        refine ⟨?_, ?_⟩ <;> simp only [stepF, step, completeSuccess, hp]
        · intro p hpp; simp at hpp
        · intro i hi; simp at hi
    | completeFail msg =>
      match hp : s.pending with
      | none => simpa [stepF, step, completeFailure, hp] using ⟨h2, h5⟩
      | some (.image img) =>
        refine ⟨?_, ?_⟩ <;> simp only [stepF, step, completeFailure, hp]
        · intro p hpp; simp at hpp
        · intro i hi; simp at hi
      | some (.byName q) =>
        refine ⟨?_, ?_⟩ <;> simp only [stepF, step, completeFailure, hp]
        · intro p hpp; simp at hpp
        · intro i hi; simp at hi
    | dismiss =>
      cases hg : s.error.isSome with
      | false => simpa [stepF, step, hg] using ⟨h2, h5⟩
      | true =>
        refine ⟨?_, ?_⟩ <;> simp only [stepF, step, hg, if_true, dismissError]
        · intro p hp; exact h2 p (by simpa using hp)
        · intro img hi; exact h5 img (by simpa using hi)
    | clear =>
      cases hg : (s.foodData.isSome && !s.isCameraActive && !s.isAnalyzing) with
      | false => simpa [stepF, step, hg] using ⟨h2, h5⟩
      | true =>
        have hg' := hg
        simp only [Bool.and_eq_true, Bool.not_eq_true'] at hg'
        obtain ⟨⟨hfd, hcam⟩, ha⟩ := hg'
        refine ⟨?_, ?_⟩ <;> simp only [stepF, step, hg, if_true, clearResult]
        · intro p hp; exact h2 p (by simpa using hp)
        · intro img hi
          exact absurd (h2 _ (by simpa using hi)) (by simp [ha])

theorem appInvF_foldl (evs : List EventF) (s : AppState) (h : AppInvF s) :
    AppInvF (evs.foldl (fun s e => stepF e s) s) := by
  induction evs generalizing s with
  | nil => simpa using h
  | cons e rest ih => exact ih (stepF e s) (appInvF_step e s h)

theorem reachableF_appInvF (s : AppState) (h : ReachableF s) : AppInvF s := by
  obtain ⟨evs, rfl⟩ := h
  exact appInvF_foldl evs initState appInvF_init

theorem take_of_take_append {α : Type} (n : Nat) (l m : List α) :
    (l ++ m.take n).take n = (l ++ m).take n := by
  rw [List.take_append_eq_append_take, List.take_append_eq_append_take,
    List.take_take, Nat.min_eq_left (Nat.sub_le n l.length)]

theorem successEvents_foldl (xs : List (String × FoodData × String × Nat))
    (s : AppState) (hcam : s.isCameraActive = false)
    (ha : s.isAnalyzing = false) (hh : s.history.length ≤ 20) :
    ((successEvents xs).foldl (fun s e => step e s) s).history =
      ((xs.map entryOf).reverse ++ s.history).take 20 ∧
    ((successEvents xs).foldl (fun s e => step e s) s).isCameraActive = false ∧
    ((successEvents xs).foldl (fun s e => step e s) s).isAnalyzing = false := by
  induction xs generalizing s with
  | nil =>
    refine ⟨?_, ?_, ?_⟩
    · simp only [successEvents, List.foldl_nil, List.map_nil, List.reverse_nil,
        List.nil_append]
      exact (List.take_of_length_le hh).symm
    · simpa [successEvents] using hcam
    · simpa [successEvents] using ha
  | cons x rest ih =>
    obtain ⟨img, r, id, t⟩ := x
    have hstep :
        (successEvents ((img, r, id, t) :: rest)).foldl (fun s e => step e s) s =
        (successEvents rest).foldl (fun s e => step e s)
          (step (.completeOk r id t) (step (.upload img) s)) := by
      simp [successEvents, List.foldl]
    set s2 := step (.completeOk r id t) (step (.upload img) s) with hs2def
    have h2hist : s2.history = (mkHistoryEntry id t img r :: s.history).take 20 := by
      simp [hs2def, step, hcam, ha, handleFileUpload, beginAnalyze, completeSuccess]
    have h2cam : s2.isCameraActive = false := by
      simp [hs2def, step, hcam, ha, handleFileUpload, beginAnalyze, completeSuccess]
    have h2ana : s2.isAnalyzing = false := by
      simp [hs2def, step, hcam, ha, handleFileUpload, beginAnalyze, completeSuccess]
    have h2len : s2.history.length ≤ 20 := by
      rw [h2hist]; simp
    have ih' := ih s2 h2cam h2ana h2len
    rw [hstep]
    refine ⟨?_, ih'.2.1, ih'.2.2⟩
    rw [ih'.1, h2hist, take_of_take_append]
    simp [entryOf, mkHistoryEntry, List.append_assoc]

/-- C1: for every sequence of successful image-based analyses starting from
the empty history, the resulting history is the reversed entry sequence
truncated to 20: it has length `min N 20`, is ordered newest-first, and for
`N > 20` holds exactly the 20 most recent entries (this is the amended
form: with `N > 20` the list cannot contain all `N` entries). -/
theorem history_bounded (xs : List (String × FoodData × String × Nat)) :
    (run (successEvents xs)).history = ((xs.map entryOf).reverse).take 20 ∧
    (run (successEvents xs)).history.length = min xs.length 20 := by
  have h := successEvents_foldl xs initState (by simp [initState])
    (by simp [initState]) (by simp [initState])
  have h1 : (run (successEvents xs)).history = ((xs.map entryOf).reverse).take 20 := by
    simpa [run, initState] using h.1
  refine ⟨h1, ?_⟩
  rw [h1]
  simp [Nat.min_comm]

/-- C1 counterexample to the claim as stated: after 21 successful image
analyses from an empty history the history holds 20 entries, and the entry
of the very first (oldest) analysis is absent — so the list does not
contain "the N most recent entries" (all 21 of them). -/
theorem history_21_drops_oldest :
    (run (successEvents run21)).history.length = 20 ∧
    entryOf ("img", sampleFood, "id", 0) ∉ (run (successEvents run21)).history := by
  constructor
  · decide
  · decide

/-- C2 counterexample: the claim says loading never throws for any stored
value, including malformed data; but for the stored string consisting of a
single opening brace, `JSON.parse` has no parse and the unguarded call in
the load effect throws. -/
theorem loadHistory_malformed_throws :
    loadHistory (some "\x7b") = Except.error () := by
  rfl

/-- C2 (amended): an absent key yields the initial empty history, and so
does an empty stored string (falsy); a stored string that parses as JSON
is installed as the history; a malformed stored string makes the load
throw — the claim's "never throws" clause does not hold on the code, which
has no `try`/`catch` around `JSON.parse`. -/
theorem loadHistory_amended :
    loadHistory none = Except.ok none ∧
    (∀ s : String, ¬ s = "" → jsonParse s = none →
      loadHistory (some s) = Except.error ()) ∧
    (∀ (s : String) (v : Json), jsonParse s = some v →
      loadHistory (some s) = Except.ok (some v)) := by
  refine ⟨rfl, ?_, ?_⟩
  · intro s hne hp
    simp [loadHistory, hne, hp]
  · intro s v hp
    have hne : ¬ s = "" := by
      intro h
      rw [h, show jsonParse "" = none from rfl] at hp
      cases hp
    simp [loadHistory, hne, hp]

/-- C2 witness: the amended behaviour at two concrete stored strings. -/
theorem loadHistory_amended_witness :
    loadHistory (some "\x7b\x7b") = Except.error () ∧
    loadHistory (some "[]") = Except.ok (some (Json.arr [])) :=
  ⟨loadHistory_amended.2.1 "\x7b\x7b" (by decide) rfl,
   loadHistory_amended.2.2 "[]" (Json.arr []) rfl⟩

/-- C3 counterexample: two `startCamera` successes with no intervening
`stopCamera` leave BOTH device streams live (the claim says the second
start first stops the prior stream, so only one could be live). -/
theorem double_start_two_live_streams :
    (run [Event.startOk, Event.startOk]).media.liveTracks = [1, 0] ∧
    (run [Event.startOk, Event.startOk]).media.srcObject = some 1 := by
  constructor
  · decide
  · decide

/-- C3 (amended): a second `startCamera` while a stream is attached and
live does NOT stop the prior stream: it allocates a fresh stream, leaves
every previously live track live (the prior stream included, so at least
two device streams are live), and merely repoints the video element's
`srcObject` at the new stream. -/
theorem start_does_not_stop_prior (s : AppState) (i : Nat)
    (_hsrc : s.media.srcObject = some i) (hlive : i ∈ s.media.liveTracks) :
    (startCameraSuccess s).media.liveTracks =
      s.media.nextStreamId :: s.media.liveTracks ∧
    i ∈ (startCameraSuccess s).media.liveTracks ∧
    2 ≤ (startCameraSuccess s).media.liveTracks.length ∧
    (startCameraSuccess s).media.srcObject = some s.media.nextStreamId := by
  refine ⟨by simp [startCameraSuccess], ?_, ?_, by simp [startCameraSuccess]⟩
  · simp only [startCameraSuccess, List.mem_cons]
    exact Or.inr hlive
  · simp only [startCameraSuccess, List.length_cons]
    have hpos : 0 < s.media.liveTracks.length :=
      List.length_pos.mpr (List.ne_nil_of_mem hlive)
    omega

/-- C3 witness: the amended behaviour at a concrete state with one live
stream. -/
theorem start_does_not_stop_prior_witness :
    0 ∈ (startCameraSuccess (run [Event.startOk])).media.liveTracks ∧
    2 ≤ (startCameraSuccess (run [Event.startOk])).media.liveTracks.length := by
  have h := start_does_not_stop_prior (run [Event.startOk]) 0 (by decide) (by decide)
  exact ⟨h.2.1, h.2.2.1⟩

/-- C4: a successful manual text search from the hero screen ends in the
Result mode with the searched record displayed, and the history list is
exactly what it was before the search — manual searches never persist. -/
theorem manual_search_success_no_history (s : AppState) (r : FoodData)
    (id : String) (now : Nat) (hg : heroVisible s = true)
    (ht : ¬ jsTrim s.manualInput = "") :
    resultModeActive (step (.completeOk r id now) (step .search s)) = true ∧
    (step (.completeOk r id now) (step .search s)).history = s.history ∧
    (step (.completeOk r id now) (step .search s)).foodData = some r := by
  refine ⟨?_, ?_, ?_⟩ <;>
    simp [step, hg, handleManualSearch, ht, beginAnalyze, completeSuccess,
      resultModeActive]

/-- C4 witness: a concrete successful search for "paneer tikka". -/
theorem manual_search_success_no_history_witness :
    resultModeActive (step (.completeOk sampleFood "id" 5)
      (step .search (run [Event.setInput "paneer tikka"]))) = true ∧
    (step (.completeOk sampleFood "id" 5)
      (step .search (run [Event.setInput "paneer tikka"]))).history =
      (run [Event.setInput "paneer tikka"]).history ∧
    (step (.completeOk sampleFood "id" 5)
      (step .search (run [Event.setInput "paneer tikka"]))).foodData =
      some sampleFood := by
  have h := manual_search_success_no_history (run [Event.setInput "paneer tikka"])
    sampleFood "id" 5 (by decide) (by decide)
  exact ⟨h.1, h.2.1, h.2.2⟩

/-- C5 counterexample: capture an image, let the gateway fail, dismiss the
error — the workflow is NOT back in Idle (the claim says dismissing
returns to Idle): the captured image is still held, so the Captured view
renders. -/
theorem image_failure_dismiss_not_idle :
    idleModeActive (run [Event.startOk, Event.capture "img",
      Event.completeFail "network down", Event.dismiss]) = false ∧
    (run [Event.startOk, Event.capture "img",
      Event.completeFail "network down", Event.dismiss]).capturedImage =
      some "img" ∧
    (run [Event.startOk, Event.capture "img",
      Event.completeFail "network down", Event.dismiss]).error = none := by
  refine ⟨?_, ?_, ?_⟩ <;> decide

/-- C5 (amended): for every state of the full program (history-item clicks
included) with an image analysis in flight, a gateway failure sets a
non-empty error message and leaves the history unchanged; dismissing the
error clears ONLY the error flag — every other state component is exactly
as after the failure — and does not return the workflow to Idle: an image
(the captured one, or a mid-flight history selection's) is still displayed. -/
theorem image_failure_error_dismiss_frame (s : AppState) (msg img : String)
    (hr : ReachableF s) (hp : s.pending = some (PendingReq.image img)) :
    (∃ m, (stepF (.base (.completeFail msg)) s).error = some m ∧ ¬ m = "") ∧
    (stepF (.base (.completeFail msg)) s).history = s.history ∧
    stepF (.base .dismiss) (stepF (.base (.completeFail msg)) s) =
      { stepF (.base (.completeFail msg)) s with error := none } ∧
    (stepF (.base .dismiss)
      (stepF (.base (.completeFail msg)) s)).capturedImage.isSome = true ∧
    idleModeActive
      (stepF (.base .dismiss) (stepF (.base (.completeFail msg)) s)) = false := by
  obtain ⟨h2, h5⟩ := reachableF_appInvF s hr
  have hci : s.capturedImage.isSome = true := h5 img hp
  refine ⟨⟨if msg = "" then "Failed to analyze image. Please try again." else msg,
    ?_, ?_⟩, ?_, ?_, ?_, ?_⟩ <;>
    try simp [stepF, step, completeFailure, hp, dismissError, idleModeActive,
      heroVisible, hci]
  by_cases hm : msg = "" <;> simp [hm]

/-- C5 witness: the amended behaviour on a concrete captured-then-failed
run of the full program. -/
theorem image_failure_error_dismiss_frame_witness :
    (∃ m, (stepF (.base (.completeFail "boom"))
      (runF [.base .startOk, .base (.capture "img")])).error = some m ∧
      ¬ m = "") ∧
    idleModeActive (stepF (.base .dismiss) (stepF (.base (.completeFail "boom"))
      (runF [.base .startOk, .base (.capture "img")]))) = false := by
  have h := image_failure_error_dismiss_frame
    (runF [.base .startOk, .base (.capture "img")]) "boom" "img"
    ⟨[.base .startOk, .base (.capture "img")], rfl⟩ (by decide)
  exact ⟨h.1, h.2.2.2.2⟩

/-- C6: capturing while the camera is active stops the attached stream's
tracks, deactivates the camera, and auto-chains into the Analyzing mode
with the captured image as the in-flight request. -/
theorem capture_stops_and_chains (s : AppState) (img : String)
    (hc : s.isCameraActive = true) :
    (step (.capture img) s).isCameraActive = false ∧
    (∀ i, s.media.srcObject = some i →
      i ∉ (step (.capture img) s).media.liveTracks) ∧
    (step (.capture img) s).isAnalyzing = true ∧
    analyzingModeActive (step (.capture img) s) = true ∧
    (step (.capture img) s).pending = some (PendingReq.image img) ∧
    (step (.capture img) s).capturedImage = some img := by
  refine ⟨?_, ?_, ?_, ?_, ?_, ?_⟩ <;>
    simp [step, hc, capturePhoto, beginAnalyze, stopCamera, analyzingModeActive]
  intro i hi
  simp [hi, List.mem_filter]

/-- C6 witness: a concrete capture from a freshly started camera. -/
theorem capture_stops_and_chains_witness :
    (step (.capture "img") (run [Event.startOk])).isCameraActive = false ∧
    0 ∉ (step (.capture "img") (run [Event.startOk])).media.liveTracks ∧
    (step (.capture "img") (run [Event.startOk])).pending =
      some (PendingReq.image "img") := by
  have h := capture_stops_and_chains (run [Event.startOk]) "img" (by decide)
  exact ⟨h.1, h.2.1 0 (by decide), h.2.2.2.2.1⟩

/-- C7: `stopCamera` is idempotent — running it twice produces exactly the
state (and released-track effects) of running it once; with no attached
stream it does not touch the media resource at all; and with an attached
stream whose tracks are already stopped it leaves the live-track set
unchanged (`track.stop()` on a stopped track is a no-op). -/
theorem stop_idempotent :
    (∀ s : AppState, stopCamera (stopCamera s) = stopCamera s) ∧
    (∀ s : AppState, s.media.srcObject = none →
      (stopCamera s).media = s.media) ∧
    (∀ (s : AppState) (i : Nat), s.media.srcObject = some i →
      i ∉ s.media.liveTracks →
      (stopCamera s).media.liveTracks = s.media.liveTracks) := by
  refine ⟨?_, ?_, ?_⟩
  · intro s
    cases hsrc : s.media.srcObject with
    | none => simp [stopCamera, hsrc]
    | some i => simp [stopCamera, hsrc, List.filter_filter]
  · intro s hsrc
    simp [stopCamera, hsrc]
  · intro s i hsrc hdead
    simp only [stopCamera, hsrc]
    exact List.filter_eq_self.mpr fun j hj => by
      have hji : j ≠ i := fun h => hdead (h ▸ hj)
      simp [hji]

/-- C7 witness: idempotence and the no-op cases at concrete states (a
fresh state with no stream, and a started-then-stopped state whose stream
is attached but dead). -/
theorem stop_idempotent_witness :
    stopCamera (stopCamera initState) = stopCamera initState ∧
    (stopCamera initState).media = initState.media ∧
    (stopCamera (run [Event.startOk, Event.stopCam])).media.liveTracks =
      (run [Event.startOk, Event.stopCam]).media.liveTracks := by
  refine ⟨stop_idempotent.1 initState, stop_idempotent.2.1 initState rfl,
    stop_idempotent.2.2 (run [Event.startOk, Event.stopCam]) 0 (by decide)
      (by decide)⟩

/-- C8: in every reachable workflow state, at most one of the modes
CameraActive / Captured / Analyzing / Result is active. -/
theorem workflow_mode_exclusive (s : AppState) (hr : Reachable s) :
    activeModeCount s ≤ 1 := by
  obtain ⟨h1, h2, h3, h4⟩ := reachable_appInv s hr
  unfold activeModeCount cameraModeActive capturedModeActive
    analyzingModeActive resultModeActive
  cases hc : s.isCameraActive with
  | true =>
    obtain ⟨ha, hci, hfd⟩ := h1 hc
    simp [ha, hci, hfd]
  | false =>
    cases ha : s.isAnalyzing with
    | true => simp [ha]
    | false =>
      cases hfd : s.foodData with
      | none =>
        cases hci : s.capturedImage <;> simp [ha, hfd, hci]
      | some r => simp [ha, hfd]

/-- C8 witness: mode exclusivity at the reachable state after a capture. -/
theorem workflow_mode_exclusive_witness :
    activeModeCount (run [Event.startOk, Event.capture "img"]) ≤ 1 :=
  workflow_mode_exclusive (run [Event.startOk, Event.capture "img"])
    ⟨[Event.startOk, Event.capture "img"], rfl⟩

/-- C9 counterexample: the claim fails on the full program because of the
history-item click.  Upload "a" and succeed (the history gains an entry),
upload "b", click that history entry while "b" is still being analyzed
(this sets the displayed record), then let the gateway reject: the failure
path sets only the error and clears only the analyzing flag, so the run
ends with a FoodRecord displayed — the Result view renders. -/
theorem midflight_selection_failure_shows_result :
    (runF selTrace).foodData = some sampleFood ∧
    resultModeActive (runF selTrace) = true ∧
    (runF selTrace).error = some "boom" := by
  refine ⟨?_, ?_, ?_⟩ <;> decide

/-- C9 (amended): a failing analysis request never itself sets or clears
the displayed FoodRecord (the catch path touches only the error, analyzing
and pending fields — over every state of the full program); and within the
workflow's own operations (start/stop/capture/upload/search/completion/
dismiss/clear), where every way of issuing a request clears or presupposes
an absent result, a failing in-flight request does end with no displayed
record.  A history entry selected while the request is in flight, however,
re-displays that entry's record and the failure leaves it in place. -/
theorem failure_leaves_record_unchanged :
    (∀ (s : AppState) (msg : String),
      (stepF (.base (.completeFail msg)) s).foodData = s.foodData) ∧
    (∀ (s : AppState) (msg : String), Reachable s → ¬ s.pending = none →
      (step (.completeFail msg) s).foodData = none) := by
  constructor
  · intro s msg
    match hpp : s.pending with
    | none => simp [stepF, step, completeFailure, hpp]
    | some (.image img) => simp [stepF, step, completeFailure, hpp]
    | some (.byName q) => simp [stepF, step, completeFailure, hpp]
  · intro s msg hr hp
    obtain ⟨h1, h2, h3, h4⟩ := reachable_appInv s hr
    match hpp : s.pending with
    | none => exact absurd hpp hp
    | some (.image img) =>
      have hfd := (h2 _ hpp).2
      simp [step, completeFailure, hpp, hfd]
    | some (.byName q) =>
      have hfd := (h2 _ hpp).2
      simp [step, completeFailure, hpp, hfd]

/-- C9 witness: the frame half at a concrete mid-flight-selection state,
and the scoped half at a failing upload-based analysis. -/
theorem failure_leaves_record_unchanged_witness :
    (stepF (.base (.completeFail "boom"))
      (runF (selTrace.take 4))).foodData = (runF (selTrace.take 4)).foodData ∧
    (step (.completeFail "boom") (run [Event.upload "i"])).foodData = none :=
  ⟨failure_leaves_record_unchanged.1 (runF (selTrace.take 4)) "boom",
   failure_leaves_record_unchanged.2 (run [Event.upload "i"]) "boom"
     ⟨[Event.upload "i"], rfl⟩ (by decide)⟩

/-- C10: submitting the search form with an input that is empty or all
whitespace changes nothing at all — `step` returns the very same state, so
no request is issued; moreover in every reachable state an in-flight
text-search query has a non-empty trimmed string, so `analyzeFoodByName`
is never invoked with an empty trimmed input. -/
theorem empty_search_is_noop :
    (∀ s : AppState, (∀ c ∈ s.manualInput.data, isJsWhitespace c = true) →
      step .search s = s) ∧
    (∀ (s : AppState) (q : String), Reachable s →
      s.pending = some (PendingReq.byName q) → ¬ jsTrim q = "") := by
  constructor
  · intro s hws
    have hdrop : s.manualInput.data.dropWhile isJsWhitespace = [] :=
      List.dropWhile_eq_nil_iff.mpr hws
    have ht : jsTrim s.manualInput = "" := by
      simp [jsTrim, hdrop]
    cases hg : heroVisible s with
    | false => simp [step, hg]
    | true => simp [step, hg, handleManualSearch, ht]
  · intro s q hr hp
    exact (reachable_appInv s hr).2.2.1 q hp

/-- C10 witness: a whitespace-only submission is a strict no-op, and a
concrete in-flight query has a non-empty trim. -/
theorem empty_search_is_noop_witness :
    step .search (run [Event.setInput "   "]) = run [Event.setInput "   "] ∧
    ¬ jsTrim "x" = "" := by
  refine ⟨empty_search_is_noop.1 (run [Event.setInput "   "]) (by decide),
    empty_search_is_noop.2 (run [Event.setInput "x", Event.search]) "x"
      ⟨[Event.setInput "x", Event.search], rfl⟩ (by decide)⟩
